import Mathlib

/-!
Shallow embedding of the traffic-data analyzer in `src/main.py`.

The aggregation core is `process_csv_data` (lines 104-244 of the source): a
single forward pass over raw CSV rows that parses each row's fields, updates
running counters, and finally derives percentages, averages and peak hours.
The chart component `HistogramApp.process_data` (lines 277-292) independently
re-tallies the raw rows into a 24-hour by 2-junction table, and
`HistogramApp.draw_histogram` (lines 311-336) scales bar heights by
`(canvas_height - 150) / (max_count + 1)` with a `0` scale for an all-zero
tally.

Modelling conventions:
  * a raw CSV row is an association list from column name to cell text;
    an absent key models both a column missing from the file and Python's
    `row.get(key, default)` taking its default;
  * Python exceptions are modelled with `Option`: a caught per-row error
    becomes a skipped row inside a total function, an uncaught error
    (`ZeroDivisionError` in the truck percentage, `ValueError` in the peak
    formatting, `KeyError` in the chart tally) makes the surrounding
    computation return `none`;
  * Python `int(s)` is modelled by `pyInt` (surrounding whitespace, optional
    sign, decimal digits); Python `round` on the exact quotients appearing
    here is modelled by `roundHalfEven` on natural numerator/denominator;
  * Python `dict` / `set` are modelled by association lists / duplicate-free
    lists that append new keys at the end, preserving insertion order.
-/

/-- One raw CSV row, as `csv.DictReader` hands it to the loops: an
association list from column name to cell text. -/
abbrev RawRow := List (String × String)

/-- Whitespace characters recognized by Python's `str.strip()` (the ones
occurring in CSV text). -/
def isPySpace (c : Char) : Bool :=
  c == ' ' || c == '\t' || c == '\n' || c == '\r'

/-- Models Python's `str.strip()`: drop whitespace from both ends. -/
def pyStrip (s : String) : String :=
  String.mk (((s.data.dropWhile isPySpace).reverse.dropWhile isPySpace).reverse)

/-- Models Python's `str.lower()` on the ASCII text of the survey files. -/
def pyLower (s : String) : String :=
  String.mk (s.data.map Char.toLower)

/-- Helper of `listInfixOf`: does the needle occur at the very front? -/
def listFrontMatch : List Char → List Char → Bool
  | _, [] => true
  | [], _ :: _ => false
  | c :: cs, d :: ds => c == d && listFrontMatch cs ds

/-- Does `needle` occur as a contiguous run somewhere in the list? -/
def listInfixOf (needle : List Char) : List Char → Bool
  | [] => needle.isEmpty
  | c :: t => listFrontMatch (c :: t) needle || listInfixOf needle t

/-- Models Python's `needle in hay` substring test. -/
def pyInStr (needle hay : String) : Bool :=
  listInfixOf needle.data hay.data

/-- Models Python's `str.split(sep)` for a single-character separator:
always at least one (possibly empty) part. -/
def splitOnChar (sep : Char) : List Char → List (List Char)
  | [] => [[]]
  | c :: t =>
    let r := splitOnChar sep t
    if c == sep then [] :: r
    else
      match r with
      | [] => [[c]]
      | h :: rest => (c :: h) :: rest

/-- The leading segment of the `HH:MM` time text: `s.split(':')[0]`,
taken verbatim (src/main.py line 174). -/
def hourKeyOf (s : String) : String :=
  String.mk ((splitOnChar ':' s.data).headD [])

/-- Accumulator pass of `pyInt` over the digit characters. -/
def digitsToNat (acc : Nat) : List Char → Option Nat
  | [] => some acc
  | c :: t =>
    if c.isDigit then digitsToNat (acc * 10 + (c.toNat - '0'.toNat)) t
    else none

/-- Models Python's `int(s)` on decimal text: surrounding whitespace is
ignored, one leading sign is allowed, and the rest must be a nonempty run
of digits. `none` models a raised `ValueError`. -/
def pyInt (s : String) : Option Int :=
  match (pyStrip s).data with
  | [] => none
  | '-' :: t =>
    if t.isEmpty then none else (digitsToNat 0 t).map (fun n => -(n : Int))
  | '+' :: t =>
    if t.isEmpty then none else (digitsToNat 0 t).map (fun n => (n : Int))
  | cs => (digitsToNat 0 cs).map (fun n => (n : Int))

/-- Models `row.get(key, d)` for string-valued fields. -/
def rowGetD (row : RawRow) (key d : String) : String :=
  (row.lookup key).getD d

/-- Models `int(row.get(key, 0))`: a missing key defaults to the integer `0`
directly; a present key casts its text with `int`, which can raise. -/
def pyIntField (row : RawRow) (key : String) : Option Int :=
  match row.lookup key with
  | none => some 0
  | some v => pyInt v

/-- A fully parsed vehicle event: the local variables of one loop iteration
of `process_csv_data` (src/main.py lines 166-174). -/
structure VehicleEvent where
  junction_name : String
  travel_in : String
  travel_out : String
  vehicle_speed : Int
  vehicle_type : String
  is_electric : Bool
  weather_condition : String
  speed_limit : Int
  hour : String
  deriving DecidableEq

/-- The junction name given special Elm-avenue handling in the source. -/
def elmName : String := "Elm Avenue/Rabbit Road"

/-- The junction name given special Hanley handling in the source. -/
def hanleyName : String := "Hanley Highway/Westway"

/-- Models the extract/sanitize block of one loop iteration (src/main.py
lines 166-174). All field extractions happen before any counter update in
the source, so a cast failure (`ValueError`, caught at line 215) leaves the
accumulated state untouched; `none` is the skipped row. -/
def parseRow (row : RawRow) : Option VehicleEvent :=
  match pyIntField row "VehicleSpeed", pyIntField row "JunctionSpeedLimit" with
  | some sp, some lim =>
    some { junction_name := pyStrip (rowGetD row "JunctionName" "")
           travel_in := pyStrip (rowGetD row "travel_Direction_in" "")
           travel_out := pyStrip (rowGetD row "travel_Direction_out" "")
           vehicle_speed := sp
           vehicle_type := pyStrip (rowGetD row "VehicleType" "")
           is_electric := pyLower (pyStrip (rowGetD row "elctricHybrid" "")) == "true"
           weather_condition := pyLower (rowGetD row "Weather_Conditions" "")
           speed_limit := lim
           hour := hourKeyOf (rowGetD row "timeOfDay" "00:00") }
  | _, _ => none

/-- The `totals` dictionary of `process_csv_data` (src/main.py lines 137-150). -/
structure Totals where
  total_vehicles : Nat
  total_trucks : Nat
  total_bikes : Nat
  total_electric_vehicles : Nat
  total_no_turn : Nat
  total_speed_violations : Nat
  total_rain_hours : Nat
  total_elm_road : Nat
  total_hanley_road : Nat
  total_buses_north : Nat
  total_scooters_elm : Nat
  total_bicycle : Nat
  deriving DecidableEq

/-- The full mutable state of the aggregation pass: the `totals` dictionary,
the per-hour Hanley counter, and the two hour sets (src/main.py lines
137-156). Dictionaries and sets are association lists / duplicate-free lists
in insertion order. -/
structure AggState where
  totals : Totals
  hanley_counts_per_hour : List (String × Nat)
  bicycle_hours : List String
  rain_hours : List String
  deriving DecidableEq

/-- The state before any row is read: every counter zero, every container
empty. -/
def initState : AggState :=
  { totals := { total_vehicles := 0, total_trucks := 0, total_bikes := 0
                total_electric_vehicles := 0, total_no_turn := 0
                total_speed_violations := 0, total_rain_hours := 0
                total_elm_road := 0, total_hanley_road := 0
                total_buses_north := 0, total_scooters_elm := 0
                total_bicycle := 0 }
    hanley_counts_per_hour := []
    bicycle_hours := []
    rain_hours := [] }

/-- Models `set.add`: append the element unless already present (insertion
order preserved, no duplicates introduced). -/
def setAdd (l : List String) (x : String) : List String :=
  if x ∈ l then l else l ++ [x]

/-- Models `d[k] = d.get(k, 0) + 1` on a Python dict: increment an existing
key in place, otherwise append the key at the end with count 1. -/
def dictIncr (d : List (String × Nat)) (k : String) : List (String × Nat) :=
  if (d.lookup k).isSome then
    d.map (fun p => if p.1 = k then (p.1, p.2 + 1) else p)
  else d ++ [(k, 1)]

/-- The counter updates one parsed event triggers (src/main.py lines
177-213), written field-wise: each Python `if` that increments a counter
becomes an `if _ then 1 else 0` summand, and the `elif` guarding the Hanley
branch is kept as the conjunction with not-Elm. `total_rain_hours` is only
assigned after the pass (line 219), so it is untouched here. -/
def applyEvent (s : AggState) (e : VehicleEvent) : AggState :=
  { totals :=
      { total_vehicles := s.totals.total_vehicles + 1
        total_trucks := s.totals.total_trucks +
          (if e.vehicle_type = "Truck" then 1 else 0)
        total_bikes := s.totals.total_bikes +
          (if e.vehicle_type = "Bicycle" ∨ e.vehicle_type = "Motorcycle" ∨
              e.vehicle_type = "Scooter" then 1 else 0)
        total_electric_vehicles := s.totals.total_electric_vehicles +
          (if e.is_electric then 1 else 0)
        total_no_turn := s.totals.total_no_turn +
          (if e.travel_in = e.travel_out then 1 else 0)
        total_speed_violations := s.totals.total_speed_violations +
          (if e.speed_limit < e.vehicle_speed then 1 else 0)
        total_rain_hours := s.totals.total_rain_hours
        total_elm_road := s.totals.total_elm_road +
          (if e.junction_name = elmName then 1 else 0)
        total_hanley_road := s.totals.total_hanley_road +
          (if e.junction_name ≠ elmName ∧ e.junction_name = hanleyName
           then 1 else 0)
        total_buses_north := s.totals.total_buses_north +
          (if e.junction_name = elmName ∧ e.travel_out = "N" ∧
              e.vehicle_type = "Buss" then 1 else 0)
        total_scooters_elm := s.totals.total_scooters_elm +
          (if e.junction_name = elmName ∧ e.vehicle_type = "Scooter"
           then 1 else 0)
        total_bicycle := s.totals.total_bicycle +
          (if e.vehicle_type = "Bicycle" then 1 else 0) }
    hanley_counts_per_hour :=
      if e.junction_name ≠ elmName ∧ e.junction_name = hanleyName
      then dictIncr s.hanley_counts_per_hour e.hour
      else s.hanley_counts_per_hour
    bicycle_hours :=
      if e.vehicle_type = "Bicycle" then setAdd s.bicycle_hours e.hour
      else s.bicycle_hours
    rain_hours :=
      if pyInStr "rain" e.weather_condition then setAdd s.rain_hours e.hour
      else s.rain_hours }

/-- One iteration of the aggregation loop of src/main.py lines 163-216: a
row that fails to parse is skipped (`except (ValueError, KeyError):
continue`), a parsed row updates the counters. The function is total: no
exception escapes the loop. -/
def aggStep (s : AggState) (row : RawRow) : AggState :=
  match parseRow row with
  | none => s
  | some e => applyEvent s e

/-- The whole aggregation pass over the raw rows. -/
def aggLoop (rows : List RawRow) : AggState :=
  rows.foldl aggStep initState

/-- The sequence of events that parse fully, in row order. -/
def validEvents (rows : List RawRow) : List VehicleEvent :=
  rows.filterMap parseRow

/-- Aggregating a sequence of already-validated events. -/
def eventFold (es : List VehicleEvent) : AggState :=
  es.foldl applyEvent initState

/-- Round-half-to-even of the exact quotient `a / b`, modelling Python 3's
`round` on the quotients computed at src/main.py lines 222-224. -/
def roundHalfEven (a b : Nat) : Nat :=
  if 2 * (a % b) < b then a / b
  else if b < 2 * (a % b) then a / b + 1
  else if (a / b) % 2 = 0 then a / b else a / b + 1

/-- The truck percentage of line 224:
`round((total_trucks / total_vehicles) * 100)`. The division is unguarded,
so zero total vehicles raises `ZeroDivisionError` (modelled by `none`),
which line 244 converts to a fatal `RuntimeError`. -/
def percentageTrucks (s : AggState) : Option Nat :=
  if s.totals.total_vehicles = 0 then none
  else some (roundHalfEven (100 * s.totals.total_trucks)
    s.totals.total_vehicles)

/-- The guarded average of line 222:
`round(total_bicycle / len(bicycle_hours)) if bicycle_hours else 0`. -/
def avgBikesPerHour (s : AggState) : Nat :=
  if s.bicycle_hours ≠ [] then
    roundHalfEven s.totals.total_bicycle s.bicycle_hours.length
  else 0

/-- The guarded percentage of line 223:
`round((total_scooters_elm / total_elm_road) * 100) if total_elm_road > 0
else 0`. -/
def percentageScootersElm (s : AggState) : Nat :=
  if 0 < s.totals.total_elm_road then
    roundHalfEven (100 * s.totals.total_scooters_elm)
      s.totals.total_elm_road
  else 0

/-- Line 227: `max(hanley_counts_per_hour.values(), default=0)`. -/
def maxHanley (d : List (String × Nat)) : Nat :=
  d.foldr (fun p m => max p.2 m) 0

/-- Line 228: all hours whose count ties the maximum, in dict insertion
order. -/
def peakHours (d : List (String × Nat)) : List String :=
  (d.filter (fun p => p.2 == maxHanley d)).map Prod.fst

/-- Line 229, for one peak hour: the range string
`f"Between {hour}:00 and {int(hour)+1}:00"`. The `int(hour)` cast can raise
`ValueError` on a non-numeric hour key (modelled by `none`); the incremented
hour is rendered with no zero padding and no wraparound at 23. -/
def formatRange (h : String) : Option String :=
  (pyInt h).map (fun n =>
    "Between " ++ h ++ ":00 and " ++ toString (n + 1) ++ ":00")

/-- Line 229: the list comprehension over all peak hours; the first
non-numeric hour key aborts the whole computation. -/
def peakHourRanges (d : List (String × Nat)) : Option (List String) :=
  (peakHours d).mapM formatRange

/-- The result dictionary returned at src/main.py lines 232-240 (the `file`
path entry is not modelled). -/
structure AnalysisResult where
  totals : Totals
  avg_bikes_per_hour : Nat
  percentage_scooters_elm : Nat
  percentage_trucks : Nat
  peak_hour_ranges : List String
  hanley_counts_per_hour : List (String × Nat)
  deriving DecidableEq

/-- The whole of `process_csv_data` after the file has been read into rows
(src/main.py lines 158-244). `none` models the `RuntimeError` raised at
line 244 when the unguarded truck-percentage division or the peak-hour
`int` cast raises; the guarded computations come first, exactly as in the
source (lines 222-223 precede line 224, which precedes lines 227-229). -/
def process_csv_data (rows : List RawRow) : Option AnalysisResult :=
  let s := aggLoop rows
  match percentageTrucks s with
  | none => none
  | some pt =>
    match peakHourRanges s.hanley_counts_per_hour with
    | none => none
    | some ranges =>
      some { totals := { s.totals with total_rain_hours := s.rain_hours.length }
             avg_bikes_per_hour := avgBikesPerHour s
             percentage_scooters_elm := percentageScootersElm s
             percentage_trucks := pt
             peak_hour_ranges := ranges
             hanley_counts_per_hour := s.hanley_counts_per_hour }

/-- The chart tally of `HistogramApp.process_data`: a dict from integer
hour to a dict from the two junction names to a count (src/main.py line
283). Keys are `Int` because Python's `int(...)` can produce hours outside
0-23, which then miss every key of the tally. -/
abbrev Tally := List (Int × List (String × Nat))

/-- Line 283: `{hour: {"Elm Avenue/Rabbit Road": 0, "Hanley
Highway/Westway": 0} for hour in range(24)}`. All 24 hours are present and
both junction counts start at zero before any row is read. -/
def initialTally : Tally :=
  (List.range 24).map (fun h => (Int.ofNat h, [(elmName, 0), (hanleyName, 0)]))

/-- Increment the count of junction `j` inside one hour's inner dict. -/
def innerIncr (inner : List (String × Nat)) (j : String) : List (String × Nat) :=
  inner.map (fun q => if q.1 = j then (q.1, q.2 + 1) else q)

/-- Line 290: `self.hourly_counts[hour][junction] += 1`. -/
def tallyIncr (t : Tally) (h : Int) (j : String) : Tally :=
  t.map (fun p => if p.1 = h then (p.1, innerIncr p.2 j) else p)

/-- One iteration of the tally loop (src/main.py lines 285-292). Only
`ValueError` (a non-numeric hour) is caught and skips the row; a missing
`timeOfDay` or `JunctionName` key, or an hour outside the pre-initialized
0-23 keys, raises an uncaught `KeyError`, modelled by `none`. -/
def chartStep (t : Tally) (row : RawRow) : Option Tally :=
  match row.lookup "timeOfDay" with
  | none => none
  | some tod =>
    match pyInt (hourKeyOf tod) with
    | none => some t
    | some h =>
      match row.lookup "JunctionName" with
      | none => none
      | some j =>
        match t.lookup h with
        | none => none
        | some inner =>
          if (inner.lookup j).isSome then some (tallyIncr t h j)
          else some t

/-- The whole tally pass of `HistogramApp.process_data`: `none` models an
uncaught exception escaping the loop (which would crash the window setup). -/
def chartTally (rows : List RawRow) : Option Tally :=
  rows.foldlM chartStep initialTally

/-- Line 320: `max(max(counts.values()) for counts in
self.hourly_counts.values())`. The base `0` is harmless because the tally
always carries 48 nonnegative cells. -/
def tallyMax (t : Tally) : Nat :=
  t.foldr (fun p m => max (p.2.foldr (fun q m2 => max q.2 m2) 0) m) 0

/-- Line 323: `scale = (self.canvas_height - 150) / (max_count + 1) if
max_count else 0`, with `canvas_height = 500`. -/
def chartScale (t : Tally) : ℚ :=
  if tallyMax t ≠ 0 then ((500 : ℚ) - 150) / (tallyMax t + 1) else 0

/-- Line 330: the top `y` coordinate of one bar,
`y = self.canvas_height - 50 - count * scale`; the bar's bottom edge is the
baseline `y = 450`, so a bar with top 450 has zero height. -/
def barTopY (count : Nat) (t : Tally) : ℚ :=
  500 - 50 - count * chartScale t

/-- The count stored in the tally for a given hour and junction (0 if the
cell is absent). -/
def cellValue (t : Tally) (h : Int) (j : String) : Nat :=
  match t.lookup h with
  | none => 0
  | some inner => (inner.lookup j).getD 0

/-- Does one raw row contribute to the chart cell for hour `h` and junction
`j`, i.e. both its keys are present, its hour text casts to exactly `h`,
and its junction text is exactly `j`? -/
def rowContributes (row : RawRow) (h : Int) (j : String) : Bool :=
  match row.lookup "timeOfDay" with
  | none => false
  | some tod =>
    match pyInt (hourKeyOf tod) with
    | none => false
    | some hn =>
      hn == h &&
        (match row.lookup "JunctionName" with
         | none => false
         | some jn => jn == j)

/-- A raw row on which the tally loop cannot raise: it has a `timeOfDay`
key and, whenever its hour text casts to an integer, that integer is one of
the pre-initialized keys 0-23 and the row also has a `JunctionName` key. -/
def chartRowSafe (row : RawRow) : Bool :=
  match row.lookup "timeOfDay" with
  | none => false
  | some tod =>
    match pyInt (hourKeyOf tod) with
    | none => true
    | some h => decide (0 ≤ h ∧ h < 24) && (row.lookup "JunctionName").isSome

/-- The invariant shape of the chart tally: the outer keys are exactly the
hours 0-23 in order, and every inner dict has exactly the two junction
keys in order. -/
def TallyShape (t : Tally) : Prop :=
  t.map Prod.fst = (List.range 24).map Int.ofNat ∧
    ∀ p ∈ t, p.2.map Prod.fst = [elmName, hanleyName]

/-- The per-category bounds of the aggregation state: every individual
counter is at most the total vehicle count. -/
def Bounded (t : Totals) : Prop :=
  t.total_trucks ≤ t.total_vehicles ∧
  t.total_bikes ≤ t.total_vehicles ∧
  t.total_electric_vehicles ≤ t.total_vehicles ∧
  t.total_no_turn ≤ t.total_vehicles ∧
  t.total_speed_violations ≤ t.total_vehicles ∧
  t.total_elm_road ≤ t.total_vehicles ∧
  t.total_hanley_road ≤ t.total_vehicles ∧
  t.total_buses_north ≤ t.total_vehicles ∧
  t.total_scooters_elm ≤ t.total_vehicles ∧
  t.total_bicycle ≤ t.total_vehicles

/-- The 24 zero-padded two-digit hour keys named by the specification. -/
def paddedHourKeys : List String :=
  (List.range 24).map (fun n => if n < 10 then "0" ++ toString n else toString n)

/-- A demo row whose only populated column is a truck's vehicle type. -/
def demoTruckRow : RawRow := [("VehicleType", "Truck")]

/-- A demo row whose speed text is not numeric, so `int` raises and the
row is skipped by the aggregation loop. -/
def badSpeedRow : RawRow := [("VehicleType", "Car"), ("VehicleSpeed", "abc")]

/-- A demo row with a one-digit hour in its time text. -/
def oneDigitHourRow : RawRow := [("timeOfDay", "7:30")]

/-- The event `oneDigitHourRow` parses to. -/
def oneDigitHourEvent : VehicleEvent :=
  { junction_name := "", travel_in := "", travel_out := ""
    vehicle_speed := 0, vehicle_type := "", is_electric := false
    weather_condition := "", speed_limit := 0, hour := "7" }

/-- A demo row whose hour casts to 25, outside the tally's 0-23 keys. -/
def hour25Row : RawRow :=
  [("timeOfDay", "25:00"), ("JunctionName", "Elm Avenue/Rabbit Road")]

/-- A demo row the chart tally processes without raising. -/
def chartGoodRow : RawRow :=
  [("timeOfDay", "08:30"), ("JunctionName", "Hanley Highway/Westway")]

/-- A demo row recording one bicycle at eight in the morning. -/
def bikeRow : RawRow := [("VehicleType", "Bicycle"), ("timeOfDay", "08:00")]

/-- A demo row with neither direction column. -/
def noDirectionsRow : RawRow := [("VehicleType", "Car"), ("timeOfDay", "05:00")]

/-- The event `noDirectionsRow` parses to: both directions default to the
empty string. -/
def noDirectionsEvent : VehicleEvent :=
  { junction_name := "", travel_in := "", travel_out := ""
    vehicle_speed := 0, vehicle_type := "Car", is_electric := false
    weather_condition := "", speed_limit := 0, hour := "05" }

example : process_csv_data [[("VehicleType", "Truck")]] =
    some { totals := { total_vehicles := 1, total_trucks := 1, total_bikes := 0
                       total_electric_vehicles := 0, total_no_turn := 1
                       total_speed_violations := 0, total_rain_hours := 0
                       total_elm_road := 0, total_hanley_road := 0
                       total_buses_north := 0, total_scooters_elm := 0
                       total_bicycle := 0 }
           avg_bikes_per_hour := 0
           percentage_scooters_elm := 0
           percentage_trucks := 100
           peak_hour_ranges := []
           hanley_counts_per_hour := [] } := by decide

example : process_csv_data [] = none := by decide

example : parseRow [("VehicleSpeed", "abc")] = none := by decide

example : (parseRow [("timeOfDay", "7:30")]).map VehicleEvent.hour =
    some "7" := by decide

example : peakHourRanges [("08", 3), ("17", 3), ("12", 1)] =
    some ["Between 08:00 and 9:00", "Between 17:00 and 18:00"] := by decide

example : chartTally [hour25Row] = none := by decide

example : (chartTally [chartGoodRow, hour25Row, chartGoodRow]) = none := by decide

example : cellValue ((chartTally [chartGoodRow, chartGoodRow]).getD []) 8
    hanleyName = 2 := by decide

example : parseRow noDirectionsRow = some noDirectionsEvent := by decide

example : parseRow oneDigitHourRow = some oneDigitHourEvent := by decide

example : chartRowSafe chartGoodRow = true := by decide

example : paddedHourKeys =
    ["00", "01", "02", "03", "04", "05", "06", "07", "08", "09", "10", "11",
     "12", "13", "14", "15", "16", "17", "18", "19", "20", "21", "22", "23"] := by
  decide

/-- A row that fails to parse leaves the aggregation state untouched. -/
theorem aggStep_skip {row : RawRow} (h : parseRow row = none) (s : AggState) :
    aggStep s row = s := by
  simp [aggStep, h]

/-- A row that parses applies exactly one event update. -/
theorem aggStep_apply {row : RawRow} {e : VehicleEvent}
    (h : parseRow row = some e) (s : AggState) :
    aggStep s row = applyEvent s e := by
  simp [aggStep, h]

/-- The aggregation pass over raw rows is the event pass over the rows that
parse fully. -/
theorem foldl_aggStep_filterMap :
    ∀ (rows : List RawRow) (s : AggState),
      rows.foldl aggStep s = (rows.filterMap parseRow).foldl applyEvent s := by
  intro rows
  induction rows with
  | nil => intro s; rfl
  | cons r rows ih =>
    intro s
    cases h : parseRow r with
    | none => simp [List.foldl_cons, List.filterMap_cons, h, aggStep_skip h, ih]
    | some e => simp [List.foldl_cons, List.filterMap_cons, h, aggStep_apply h, ih]

/-- Each applied event increments the total vehicle count by exactly one. -/
theorem totalVehicles_foldl :
    ∀ (es : List VehicleEvent) (s : AggState),
      (es.foldl applyEvent s).totals.total_vehicles =
        s.totals.total_vehicles + es.length := by
  intro es
  induction es with
  | nil => intro s; simp
  | cons e es ih =>
    intro s
    rw [List.foldl_cons, ih]
    simp only [applyEvent, List.length_cons]
    omega

/-- The total vehicle count is the number of rows that parse fully. -/
theorem aggLoop_total_vehicles (rows : List RawRow) :
    (aggLoop rows).totals.total_vehicles = (validEvents rows).length := by
  rw [aggLoop, foldl_aggStep_filterMap, totalVehicles_foldl]
  simp [initState, validEvents]

/-- Rounding a quotient whose numerator is at most `c` times the
denominator yields at most `c`. -/
theorem roundHalfEven_le {a b c : Nat} (hb : b ≠ 0) (h : a ≤ c * b) :
    roundHalfEven a b ≤ c := by
  have hbpos : 0 < b := Nat.pos_of_ne_zero hb
  have hq : a / b ≤ c := by
    have h1 : a / b ≤ c * b / b := Nat.div_le_div_right h
    rwa [Nat.mul_div_cancel c hbpos] at h1
  have hup : a % b ≠ 0 → a / b < c := by
    intro hr
    rw [Nat.div_lt_iff_lt_mul hbpos]
    rcases Nat.lt_or_ge a (c * b) with h' | h'
    · exact h'
    · exfalso
      apply hr
      have hab : a = c * b := Nat.le_antisymm h h'
      rw [hab]
      exact Nat.mul_mod_left c b
  unfold roundHalfEven
  split_ifs with h1 h2 h3
  · exact hq
  · exact hup (by omega)
  · exact hq
  · exact hup (by omega)

/-- The zero state satisfies the per-category bounds. -/
theorem bounded_initState : Bounded initState.totals := by
  simp [Bounded, initState]

/-- One event update preserves the per-category bounds: each category
increments by at most one while the total increments by exactly one. -/
theorem bounded_applyEvent {s : AggState} (e : VehicleEvent)
    (h : Bounded s.totals) : Bounded (applyEvent s e).totals := by
  obtain ⟨h1, h2, h3, h4, h5, h6, h7, h8, h9, h10⟩ := h
  refine ⟨?_, ?_, ?_, ?_, ?_, ?_, ?_, ?_, ?_, ?_⟩ <;>
    simp only [applyEvent] <;> split_ifs <;> omega

/-- The per-category bounds hold after folding any event sequence. -/
theorem bounded_foldl :
    ∀ (es : List VehicleEvent) (s : AggState),
      Bounded s.totals → Bounded (es.foldl applyEvent s).totals := by
  intro es
  induction es with
  | nil => intro s h; exact h
  | cons e es ih =>
    intro s h
    rw [List.foldl_cons]
    exact ih _ (bounded_applyEvent e h)

/-- Membership in the insertion-ordered set model. -/
theorem mem_setAdd {l : List String} {x y : String} :
    x ∈ setAdd l y ↔ x ∈ l ∨ x = y := by
  unfold setAdd
  split_ifs with h
  · constructor
    · exact Or.inl
    · rintro (hx | rfl)
      · exact hx
      · exact h
  · simp [List.mem_append]

/-- Adding to the set model introduces no duplicates. -/
theorem nodup_setAdd {l : List String} {y : String} (h : l.Nodup) :
    (setAdd l y).Nodup := by
  unfold setAdd
  split_ifs with hy
  · exact h
  · rw [List.nodup_append]
    refine ⟨h, List.nodup_singleton y, ?_⟩
    intro a ha hay
    rw [List.mem_singleton] at hay
    subst hay
    exact hy ha

/-- The bicycle-hour set after a fold contains exactly the starting set
plus the hours of bicycle events. -/
theorem bicycleHours_foldl :
    ∀ (es : List VehicleEvent) (s : AggState) (x : String),
      x ∈ (es.foldl applyEvent s).bicycle_hours ↔
        x ∈ s.bicycle_hours ∨
          ∃ e ∈ es, e.vehicle_type = "Bicycle" ∧ e.hour = x := by
  intro es
  induction es with
  | nil => intro s x; simp
  | cons e es ih =>
    intro s x
    rw [List.foldl_cons, ih]
    have hb : (applyEvent s e).bicycle_hours =
        if e.vehicle_type = "Bicycle" then setAdd s.bicycle_hours e.hour
        else s.bicycle_hours := rfl
    rw [hb]
    split_ifs with he
    · rw [mem_setAdd]
      simp only [List.mem_cons]
      constructor
      · rintro ((hx | rfl) | ⟨e', he', hty, hh⟩)
        · exact Or.inl hx
        · exact Or.inr ⟨e, Or.inl rfl, he, rfl⟩
        · exact Or.inr ⟨e', Or.inr he', hty, hh⟩
      · rintro (hx | ⟨e', (rfl | he'), hty, hh⟩)
        · exact Or.inl (Or.inl hx)
        · exact Or.inl (Or.inr hh.symm)
        · exact Or.inr ⟨e', he', hty, hh⟩
    · simp only [List.mem_cons]
      constructor
      · rintro (hx | ⟨e', he', hty, hh⟩)
        · exact Or.inl hx
        · exact Or.inr ⟨e', Or.inr he', hty, hh⟩
      · rintro (hx | ⟨e', (rfl | he'), hty, hh⟩)
        · exact Or.inl hx
        · exact absurd hty he
        · exact Or.inr ⟨e', he', hty, hh⟩

/-- The bicycle-hour set stays duplicate-free across the fold. -/
theorem bicycleHours_nodup :
    ∀ (es : List VehicleEvent) (s : AggState),
      s.bicycle_hours.Nodup → (es.foldl applyEvent s).bicycle_hours.Nodup := by
  intro es
  induction es with
  | nil => intro s h; exact h
  | cons e es ih =>
    intro s h
    rw [List.foldl_cons]
    apply ih
    have hb : (applyEvent s e).bicycle_hours =
        if e.vehicle_type = "Bicycle" then setAdd s.bicycle_hours e.hour
        else s.bicycle_hours := rfl
    rw [hb]
    split_ifs with he
    · exact nodup_setAdd h
    · exact h

/-- Inversion of a successful row parse: every text field of the event is
the sanitized text of the corresponding column. -/
theorem parseRow_some_fields {row : RawRow} {e : VehicleEvent}
    (h : parseRow row = some e) :
    e.travel_in = pyStrip (rowGetD row "travel_Direction_in" "") ∧
    e.travel_out = pyStrip (rowGetD row "travel_Direction_out" "") ∧
    e.hour = hourKeyOf (rowGetD row "timeOfDay" "00:00") := by
  unfold parseRow at h
  rcases h1 : pyIntField row "VehicleSpeed" with _ | sp <;> rw [h1] at h
  · simp at h
  rcases h2 : pyIntField row "JunctionSpeedLimit" with _ | lim <;> rw [h2] at h
  · simp at h
  rw [Option.some_inj] at h
  subst h
  exact ⟨rfl, rfl, rfl⟩

/-- C1: for any rows with at least one validated event the truck percentage
is `round(100 * trucks / total)` and is at most 100 (it is a natural number,
hence at least 0); with zero validated events the unguarded division of
src/main.py line 224 raises, so `process_csv_data` fails fatally instead of
returning 0 — unlike the average-bikes and Elm-scooter computations, whose
zero-denominator guards are the last two conjuncts. -/
theorem truck_percentage_spec (rows : List RawRow) :
    (validEvents rows ≠ [] →
      percentageTrucks (aggLoop rows) =
        some (roundHalfEven (100 * (aggLoop rows).totals.total_trucks)
          (aggLoop rows).totals.total_vehicles) ∧
      roundHalfEven (100 * (aggLoop rows).totals.total_trucks)
        (aggLoop rows).totals.total_vehicles ≤ 100) ∧
    (validEvents rows = [] → process_csv_data rows = none) ∧
    ((aggLoop rows).bicycle_hours = [] → avgBikesPerHour (aggLoop rows) = 0) ∧
    ((aggLoop rows).totals.total_elm_road = 0 →
      percentageScootersElm (aggLoop rows) = 0) := by
  have htv := aggLoop_total_vehicles rows
  refine ⟨?_, ?_, ?_, ?_⟩
  · intro hne
    have hnz : (aggLoop rows).totals.total_vehicles ≠ 0 := by
      rw [htv]
      simpa using hne
    constructor
    · unfold percentageTrucks
      rw [if_neg hnz]
    · have hb : Bounded (aggLoop rows).totals := by
        rw [aggLoop, foldl_aggStep_filterMap]
        exact bounded_foldl _ _ bounded_initState
      exact roundHalfEven_le hnz (Nat.mul_le_mul_left 100 hb.1)
  · intro he
    have hz : (aggLoop rows).totals.total_vehicles = 0 := by
      rw [htv, he]
      rfl
    simp [process_csv_data, percentageTrucks, hz]
  · intro hb
    simp [avgBikesPerHour, hb]
  · intro hz
    simp [percentageScootersElm, hz]

/-- Witness for C1 at concrete inputs: one truck row on the non-empty side,
the empty row list on the fatal side. -/
theorem truck_percentage_spec_witness :
    validEvents [demoTruckRow] ≠ [] ∧
    percentageTrucks (aggLoop [demoTruckRow]) =
      some (roundHalfEven (100 * (aggLoop [demoTruckRow]).totals.total_trucks)
        (aggLoop [demoTruckRow]).totals.total_vehicles) ∧
    process_csv_data [] = none :=
  ⟨by decide, ((truck_percentage_spec [demoTruckRow]).1 (by decide)).1,
    (truck_percentage_spec []).2.1 (by decide)⟩

/-- C2: peak-hour detection keeps every hour tied for the maximum Hanley
count, and each is formatted as `Between HH:00 and (HH+1):00` with the
incremented hour a plain unpadded integer; the spec's concrete scenario and
the hour-23 case evaluate as stated. -/
theorem peak_hours_all_ties :
    (∀ (d : List (String × Nat)) (h : String),
      h ∈ peakHours d ↔ ∃ c, (h, c) ∈ d ∧ c = maxHanley d) ∧
    (∀ (h : String) (n : Int), pyInt h = some n →
      formatRange h =
        some ("Between " ++ h ++ ":00 and " ++ toString (n + 1) ++ ":00")) ∧
    peakHourRanges [("08", 3), ("17", 3), ("12", 1)] =
      some ["Between 08:00 and 9:00", "Between 17:00 and 18:00"] ∧
    formatRange "23" = some "Between 23:00 and 24:00" := by
  refine ⟨?_, ?_, by decide, by decide⟩
  · intro d h
    unfold peakHours
    simp only [List.mem_map, List.mem_filter, beq_iff_eq]
    constructor
    · rintro ⟨⟨h', c⟩, ⟨hmem, hc⟩, rfl⟩
      exact ⟨c, hmem, hc⟩
    · rintro ⟨c, hmem, hc⟩
      exact ⟨(h, c), ⟨hmem, hc⟩, rfl⟩
  · intro h n hn
    simp [formatRange, hn]

/-- Witness for C2 at hour key 23. -/
theorem peak_hours_all_ties_witness :
    pyInt "23" = some 23 ∧
    formatRange "23" =
      some ("Between " ++ "23" ++ ":00 and " ++ toString ((23 : Int) + 1) ++ ":00") :=
  ⟨by decide, peak_hours_all_ties.2.1 "23" 23 (by decide)⟩

/-- C3: a row whose parse fails is skipped and the pass continues with the
remaining rows: the aggregation over any surrounding rows is unchanged.
`aggLoop` is a total function, which is the embedding of the fact that the
per-row `except (ValueError, KeyError): continue` lets no exception escape
the aggregation loop. -/
theorem row_skip_continues (pre post : List RawRow) (row : RawRow)
    (h : parseRow row = none) :
    aggLoop (pre ++ row :: post) = aggLoop (pre ++ post) := by
  unfold aggLoop
  rw [List.foldl_append, List.foldl_append, List.foldl_cons, aggStep_skip h]

/-- Witness for C3: the non-numeric-speed row is dropped after a truck row. -/
theorem row_skip_continues_witness :
    parseRow badSpeedRow = none ∧
    aggLoop [demoTruckRow, badSpeedRow] = aggLoop [demoTruckRow] :=
  ⟨by decide, row_skip_continues [demoTruckRow] [] badSpeedRow (by decide)⟩

/-- C4: row-skip is atomic — the state after the raw-row pass equals the
state of aggregating exactly the fully parsed rows, so a failed row
contributes to no total, per-hour counter or hour set. -/
theorem aggregation_atomic (rows : List RawRow) :
    aggLoop rows = eventFold (validEvents rows) := by
  rw [aggLoop, eventFold, validEvents, foldl_aggStep_filterMap]

/-- C5 counterexample: the row with time text `7:30` parses fully, yet its
hour key is the unpadded `"7"`, which is not among the zero-padded keys
`"00"`-`"23"` the claim asserts. -/
theorem hour_key_padded_counterexample :
    Option.map VehicleEvent.hour (parseRow oneDigitHourRow) = some "7" ∧
    "7" ∉ paddedHourKeys := by decide

/-- C5 amended: the hour key of every parsed event is the leading
`:`-separated segment of the `timeOfDay` text (default `"00:00"`), taken
verbatim with no zero-padding and no range check - so it lies in
`"00"`-`"23"` only when the source text's hour already does. -/
theorem hour_key_verbatim (row : RawRow) (e : VehicleEvent)
    (h : parseRow row = some e) :
    e.hour = hourKeyOf (rowGetD row "timeOfDay" "00:00") :=
  (parseRow_some_fields h).2.2

/-- Witness for the amended C5 at the one-digit-hour row. -/
theorem hour_key_verbatim_witness :
    parseRow oneDigitHourRow = some oneDigitHourEvent ∧
    oneDigitHourEvent.hour = hourKeyOf (rowGetD oneDigitHourRow "timeOfDay" "00:00") :=
  ⟨by decide, hour_key_verbatim oneDigitHourRow oneDigitHourEvent (by decide)⟩

/-- C8: after aggregating any row sequence, each of the ten category totals
is at most the total vehicle count, and each is nonnegative. -/
theorem category_totals_bounded (rows : List RawRow) :
    Bounded (aggLoop rows).totals ∧
    0 ≤ (aggLoop rows).totals.total_trucks ∧
    0 ≤ (aggLoop rows).totals.total_bikes ∧
    0 ≤ (aggLoop rows).totals.total_electric_vehicles ∧
    0 ≤ (aggLoop rows).totals.total_no_turn ∧
    0 ≤ (aggLoop rows).totals.total_speed_violations ∧
    0 ≤ (aggLoop rows).totals.total_elm_road ∧
    0 ≤ (aggLoop rows).totals.total_hanley_road ∧
    0 ≤ (aggLoop rows).totals.total_buses_north ∧
    0 ≤ (aggLoop rows).totals.total_scooters_elm ∧
    0 ≤ (aggLoop rows).totals.total_bicycle := by
  refine ⟨?_, Nat.zero_le _, Nat.zero_le _, Nat.zero_le _, Nat.zero_le _,
    Nat.zero_le _, Nat.zero_le _, Nat.zero_le _, Nat.zero_le _,
    Nat.zero_le _, Nat.zero_le _⟩
  rw [aggLoop, foldl_aggStep_filterMap]
  exact bounded_foldl _ _ bounded_initState

/-- C9: the bicycle-hour set is exactly the duplicate-free set of hours of
bicycle events, the average is `round(bicycles / |hours|)` when that set is
non-empty, and it is 0 whenever no bicycle event exists at all. -/
theorem avg_bikes_spec (rows : List RawRow) :
    (∀ x, x ∈ (aggLoop rows).bicycle_hours ↔
      ∃ e ∈ validEvents rows, e.vehicle_type = "Bicycle" ∧ e.hour = x) ∧
    (aggLoop rows).bicycle_hours.Nodup ∧
    ((aggLoop rows).bicycle_hours ≠ [] →
      avgBikesPerHour (aggLoop rows) =
        roundHalfEven (aggLoop rows).totals.total_bicycle
          (aggLoop rows).bicycle_hours.length) ∧
    ((∀ e ∈ validEvents rows, e.vehicle_type ≠ "Bicycle") →
      avgBikesPerHour (aggLoop rows) = 0) := by
  have hmem : ∀ x, x ∈ (aggLoop rows).bicycle_hours ↔
      ∃ e ∈ validEvents rows, e.vehicle_type = "Bicycle" ∧ e.hour = x := by
    intro x
    rw [aggLoop, foldl_aggStep_filterMap, bicycleHours_foldl]
    simp [initState, validEvents]
  refine ⟨hmem, ?_, ?_, ?_⟩
  · rw [aggLoop, foldl_aggStep_filterMap]
    exact bicycleHours_nodup _ _ (by simp [initState])
  · intro hne
    simp [avgBikesPerHour, hne]
  · intro hno
    have hempty : (aggLoop rows).bicycle_hours = [] := by
      rcases h : (aggLoop rows).bicycle_hours with _ | ⟨x, l⟩
      · rfl
      · exfalso
        have hx : x ∈ (aggLoop rows).bicycle_hours := by
          rw [h]
          exact List.mem_cons_self x l
        rw [hmem x] at hx
        obtain ⟨e, he, hty, _⟩ := hx
        exact hno e he hty
    simp [avgBikesPerHour, hempty]

/-- Witness for C9 at one bicycle row. -/
theorem avg_bikes_spec_witness :
    (aggLoop [bikeRow]).bicycle_hours ≠ [] ∧
    avgBikesPerHour (aggLoop [bikeRow]) =
      roundHalfEven (aggLoop [bikeRow]).totals.total_bicycle
        (aggLoop [bikeRow]).bicycle_hours.length :=
  ⟨by decide, (avg_bikes_spec [bikeRow]).2.2.1 (by decide)⟩

/-- C10: for every row that parses, the no-turn counter increments exactly
when the trimmed in-direction equals the trimmed out-direction; in
particular a row with both direction columns absent (each defaulting to the
empty string) is counted as a no-turn vehicle. -/
theorem no_turn_counts (row : RawRow) (e : VehicleEvent) (s : AggState)
    (h : parseRow row = some e) :
    ((applyEvent s e).totals.total_no_turn = s.totals.total_no_turn + 1 ↔
      e.travel_in = e.travel_out) ∧
    e.travel_in = pyStrip (rowGetD row "travel_Direction_in" "") ∧
    e.travel_out = pyStrip (rowGetD row "travel_Direction_out" "") ∧
    (row.lookup "travel_Direction_in" = none →
      row.lookup "travel_Direction_out" = none →
      (applyEvent s e).totals.total_no_turn = s.totals.total_no_turn + 1) := by
  obtain ⟨hin, hout, _⟩ := parseRow_some_fields h
  have hiff : (applyEvent s e).totals.total_no_turn =
      s.totals.total_no_turn + 1 ↔ e.travel_in = e.travel_out := by
    simp only [applyEvent]
    split_ifs with hio <;> simp [hio]
  refine ⟨hiff, hin, hout, ?_⟩
  intro h1 h2
  rw [hiff, hin, hout, rowGetD, rowGetD, h1, h2]

/-- Witness for C10: the directionless row parses and is counted as a
no-turn vehicle. -/
theorem no_turn_counts_witness :
    parseRow noDirectionsRow = some noDirectionsEvent ∧
    noDirectionsRow.lookup "travel_Direction_in" = none ∧
    (applyEvent initState noDirectionsEvent).totals.total_no_turn =
      initState.totals.total_no_turn + 1 :=
  ⟨by decide, by decide,
    (no_turn_counts noDirectionsRow noDirectionsEvent initState
      (by decide)).2.2.2 (by decide) (by decide)⟩

/-- Looking up a key at the head of an association list. -/
theorem lookup_cons_true {α β : Type} [BEq α] {k a : α} {b : β}
    {es : List (α × β)} (h : (a == k) = true) :
    ((k, b) :: es).lookup a = some b := by
  rw [List.lookup_cons, h]

/-- Looking up a key that differs from the head of an association list. -/
theorem lookup_cons_false {α β : Type} [BEq α] {k a : α} {b : β}
    {es : List (α × β)} (h : (a == k) = false) :
    ((k, b) :: es).lookup a = es.lookup a := by
  rw [List.lookup_cons, h]

/-- A successful lookup exhibits a member of the association list. -/
theorem lookup_mem {α β : Type} [BEq α] [LawfulBEq α] {l : List (α × β)}
    {a : α} {b : β} (h : l.lookup a = some b) : (a, b) ∈ l := by
  rw [List.lookup_eq_some_iff] at h
  obtain ⟨l₁, l₂, rfl, _⟩ := h
  simp

/-- A key among the first components of an association list has a
successful lookup. -/
theorem lookup_isSome_of_mem_keys {α β : Type} [BEq α] [LawfulBEq α]
    {l : List (α × β)} {a : α} (h : a ∈ l.map Prod.fst) :
    (l.lookup a).isSome = true := by
  rw [List.lookup_isSome_iff]
  simp only [List.mem_map] at h
  obtain ⟨p, hp, rfl⟩ := h
  exact ⟨p, hp, by simp⟩

/-- Lookup after the in-place update of one key of a dict: the updated
key's value is transformed, every other key is untouched. -/
theorem lookup_map_update {α β : Type} [BEq α] [LawfulBEq α] [DecidableEq α]
    (l : List (α × β)) (k : α) (f : β → β) (a : α) :
    (l.map (fun p => if p.1 = k then (p.1, f p.2) else p)).lookup a =
      if a = k then (l.lookup a).map f else l.lookup a := by
  induction l with
  | nil => simp only [List.map_nil, List.lookup_nil, Option.map_none']; split <;> rfl
  | cons p l ih =>
    obtain ⟨pk, pv⟩ := p
    by_cases hpk : pk = k
    · subst hpk
      rw [List.map_cons,
        show (if (pk, pv).1 = pk then ((pk, pv).1, f (pk, pv).2) else (pk, pv)) =
          (pk, f pv) from by simp]
      cases hb : a == pk
      · rw [lookup_cons_false hb, lookup_cons_false hb, ih]
      · have ha : a = pk := by simpa using hb
        subst ha
        rw [lookup_cons_true hb, lookup_cons_true hb, if_pos rfl]
        rfl
    · rw [List.map_cons,
        show (if (pk, pv).1 = k then ((pk, pv).1, f (pk, pv).2) else (pk, pv)) =
          (pk, pv) from by simp [hpk]]
      cases hb : a == pk
      · rw [lookup_cons_false hb, lookup_cons_false hb, ih]
      · have ha : a = pk := by simpa using hb
        subst ha
        rw [lookup_cons_true hb, lookup_cons_true hb, if_neg hpk]

/-- Lookup in the tally after incrementing one hour's inner dict. -/
theorem lookup_tallyIncr (t : Tally) (h : Int) (j : String) (a : Int) :
    (tallyIncr t h j).lookup a =
      if a = h then (t.lookup a).map (fun inner => innerIncr inner j)
      else t.lookup a :=
  lookup_map_update t h (fun inner => innerIncr inner j) a

/-- Lookup in an inner dict after incrementing one junction's count. -/
theorem lookup_innerIncr (inner : List (String × Nat)) (j' : String)
    (j : String) :
    (innerIncr inner j').lookup j =
      if j = j' then (inner.lookup j).map (fun c => c + 1)
      else inner.lookup j :=
  lookup_map_update inner j' (fun c => c + 1) j

/-- The outer keys of the tally survive an increment. -/
theorem map_fst_tallyIncr (t : Tally) (h : Int) (j : String) :
    (tallyIncr t h j).map Prod.fst = t.map Prod.fst := by
  unfold tallyIncr
  rw [List.map_map]
  apply List.map_congr_left
  intro p _
  simp only [Function.comp_apply]
  split <;> rfl

/-- The junction keys of an inner dict survive an increment. -/
theorem map_fst_innerIncr (inner : List (String × Nat)) (j : String) :
    (innerIncr inner j).map Prod.fst = inner.map Prod.fst := by
  unfold innerIncr
  rw [List.map_map]
  apply List.map_congr_left
  intro q _
  simp only [Function.comp_apply]
  split <;> rfl

/-- The tally shape survives an increment. -/
theorem tallyShape_tallyIncr {t : Tally} (hs : TallyShape t) (h : Int)
    (j : String) : TallyShape (tallyIncr t h j) := by
  constructor
  · rw [map_fst_tallyIncr]
    exact hs.1
  · intro p hp
    unfold tallyIncr at hp
    rw [List.mem_map] at hp
    obtain ⟨q, hq, rfl⟩ := hp
    split_ifs with hq1
    · show (innerIncr q.2 j).map Prod.fst = [elmName, hanleyName]
      rw [map_fst_innerIncr]
      exact hs.2 q hq
    · exact hs.2 q hq

/-- The initial tally has the invariant shape. -/
theorem tallyShape_initialTally : TallyShape initialTally := by
  unfold TallyShape
  exact ⟨by decide, by decide⟩

/-- One chart-loop step preserves the tally shape. -/
theorem chartStep_shape {t t' : Tally} {row : RawRow}
    (h : chartStep t row = some t') (hs : TallyShape t) : TallyShape t' := by
  unfold chartStep at h
  rcases h1 : row.lookup "timeOfDay" with _ | tod
  · simp [h1] at h
  simp only [h1] at h
  rcases h2 : pyInt (hourKeyOf tod) with _ | hn
  · simp only [h2] at h
    obtain rfl : t = t' := Option.some_inj.mp h
    exact hs
  simp only [h2] at h
  rcases h3 : row.lookup "JunctionName" with _ | jn
  · simp [h3] at h
  simp only [h3] at h
  rcases h4 : t.lookup hn with _ | inner
  · simp [h4] at h
  simp only [h4] at h
  split_ifs at h
  · obtain rfl : tallyIncr t hn jn = t' := Option.some_inj.mp h
    exact tallyShape_tallyIncr hs hn jn
  · obtain rfl : t = t' := Option.some_inj.mp h
    exact hs

/-- The tally shape is preserved across the whole chart loop. -/
theorem foldlM_chartStep_shape :
    ∀ (rows : List RawRow) (t0 t : Tally), TallyShape t0 →
      List.foldlM chartStep t0 rows = some t → TallyShape t := by
  intro rows
  induction rows with
  | nil =>
    intro t0 t h0 h
    rw [List.foldlM_nil] at h
    obtain rfl : t0 = t := Option.some_inj.mp h
    exact h0
  | cons r rows ih =>
    intro t0 t h0 h
    rw [List.foldlM_cons] at h
    rcases h1 : chartStep t0 r with _ | t1
    · rw [h1] at h
      simp at h
    · rw [h1] at h
      simp only [Option.bind_eq_bind, Option.some_bind] at h
      exact ih t1 t (chartStep_shape h1 h0) h

/-- The tally produced by `chartTally` has the invariant shape. -/
theorem chartTally_shape {rows : List RawRow} {t : Tally}
    (h : chartTally rows = some t) : TallyShape t :=
  foldlM_chartStep_shape rows initialTally t tallyShape_initialTally h

/-- Every cell of the initial tally is zero. -/
theorem cellValue_initialTally (h : Int) (j : String) :
    cellValue initialTally h j = 0 := by
  unfold cellValue
  rcases h4 : initialTally.lookup h with _ | inner
  · simp [h4]
  · simp only [h4]
    have hmem : (h, inner) ∈ initialTally := lookup_mem h4
    have hzero : ∀ p ∈ initialTally, ∀ q ∈ p.2, q.2 = 0 := by decide
    rcases h5 : inner.lookup j with _ | v
    · simp [h5]
    · have hq : (j, v) ∈ inner := lookup_mem h5
      have hv := hzero _ hmem _ hq
      simpa using hv

/-- One chart-loop step changes the cell of one of the two charted
junctions by exactly the row's contribution to that cell. -/
theorem chartStep_cell {t t' : Tally} {row : RawRow} (hs : TallyShape t)
    {h : Int} {j : String} (hj : j = elmName ∨ j = hanleyName)
    (hstep : chartStep t row = some t') :
    cellValue t' h j =
      cellValue t h j + (if rowContributes row h j then 1 else 0) := by
  unfold chartStep at hstep
  rcases h1 : row.lookup "timeOfDay" with _ | tod
  · simp [h1] at hstep
  simp only [h1] at hstep
  rcases h2 : pyInt (hourKeyOf tod) with _ | hn
  · simp only [h2] at hstep
    obtain rfl : t = t' := Option.some_inj.mp hstep
    have hskip : rowContributes row h j = false := by
      unfold rowContributes
      simp only [h1, h2]
    simp [hskip]
  simp only [h2] at hstep
  rcases h3 : row.lookup "JunctionName" with _ | jn
  · simp [h3] at hstep
  simp only [h3] at hstep
  have hcontrib : rowContributes row h j = ((hn == h) && (jn == j)) := by
    unfold rowContributes
    simp only [h1, h2, h3]
  rcases h4 : t.lookup hn with _ | inner
  · simp [h4] at hstep
  simp only [h4] at hstep
  have hcell : ∀ (u : Tally) (a : Int),
      cellValue u a j = ((u.lookup a).map
        (fun inner => (inner.lookup j).getD 0)).getD 0 := by
    intro u a
    unfold cellValue
    rcases u.lookup a with _ | w <;> simp
  split_ifs at hstep with h5
  · obtain rfl : tallyIncr t hn jn = t' := Option.some_inj.mp hstep
    rw [hcontrib, hcell, hcell, lookup_tallyIncr]
    by_cases hh : h = hn
    · subst hh
      rw [if_pos rfl, h4]
      simp only [Option.map_some', Option.getD_some, lookup_innerIncr]
      by_cases hjj : j = jn
      · subst hjj
        obtain ⟨v, hv⟩ := Option.isSome_iff_exists.mp h5
        rw [if_pos rfl, hv]
        simp
      · rw [if_neg hjj]
        have hbf : (jn == j) = false := by
          simp only [beq_eq_false_iff_ne, ne_eq]
          exact fun e => hjj e.symm
        simp [hbf]
    · rw [if_neg hh]
      have hbf : (hn == h) = false := by
        simp only [beq_eq_false_iff_ne, ne_eq]
        exact fun e => hh e.symm
      simp [hbf]
  · obtain rfl : t = t' := Option.some_inj.mp hstep
    have hmem : (hn, inner) ∈ t := lookup_mem h4
    have hkeys := hs.2 _ hmem
    have hjn : (jn == j) = false := by
      simp only [beq_eq_false_iff_ne, ne_eq]
      intro hEq
      subst hEq
      apply h5
      apply lookup_isSome_of_mem_keys
      rw [hkeys]
      rcases hj with rfl | rfl <;> simp
    rw [hcontrib]
    simp [hjn]

/-- Across the whole chart loop, each charted cell counts exactly the rows
that contribute to it, on top of its starting value. -/
theorem foldlM_chartStep_cell :
    ∀ (rows : List RawRow) (t0 t : Tally) (h : Int) (j : String),
      TallyShape t0 → (j = elmName ∨ j = hanleyName) →
      List.foldlM chartStep t0 rows = some t →
      cellValue t h j =
        cellValue t0 h j +
          rows.countP (fun row => rowContributes row h j) := by
  intro rows
  induction rows with
  | nil =>
    intro t0 t h j h0 hj hf
    rw [List.foldlM_nil] at hf
    obtain rfl : t0 = t := Option.some_inj.mp hf
    simp
  | cons r rows ih =>
    intro t0 t h j h0 hj hf
    rw [List.foldlM_cons] at hf
    rcases h1 : chartStep t0 r with _ | t1
    · rw [h1] at hf
      simp at hf
    · rw [h1] at hf
      simp only [Option.bind_eq_bind, Option.some_bind] at hf
      rw [List.countP_cons]
      rw [ih t1 t h j (chartStep_shape h1 h0) hj hf]
      rw [chartStep_cell h0 hj h1]
      omega

/-- The cells of the chart tally count contributing rows exactly. -/
theorem chartTally_cell {rows : List RawRow} {t : Tally} {h : Int}
    {j : String} (hj : j = elmName ∨ j = hanleyName)
    (ht : chartTally rows = some t) :
    cellValue t h j = rows.countP (fun row => rowContributes row h j) := by
  have := foldlM_chartStep_cell rows initialTally t h j
    tallyShape_initialTally hj ht
  rw [this, cellValue_initialTally]
  omega

/-- A safe row can never make one chart-loop step raise. -/
theorem chartStep_safe {t : Tally} {row : RawRow} (hs : TallyShape t)
    (hrow : chartRowSafe row = true) : (chartStep t row).isSome = true := by
  unfold chartRowSafe at hrow
  unfold chartStep
  rcases h1 : row.lookup "timeOfDay" with _ | tod
  · simp [h1] at hrow
  simp only [h1] at hrow ⊢
  rcases h2 : pyInt (hourKeyOf tod) with _ | hn
  · simp only [h2]
    rfl
  simp only [h2] at hrow ⊢
  rw [Bool.and_eq_true, decide_eq_true_eq] at hrow
  obtain ⟨⟨hge, hlt⟩, hjnSome⟩ := hrow
  rcases h3 : row.lookup "JunctionName" with _ | jn
  · rw [h3] at hjnSome
    simp at hjnSome
  simp only [h3]
  have hkey : hn ∈ t.map Prod.fst := by
    have h5 : hn.toNat ∈ List.range 24 := by
      rw [List.mem_range]
      omega
    have h6 : Int.ofNat hn.toNat ∈ (List.range 24).map Int.ofNat :=
      List.mem_map_of_mem _ h5
    have h7 : Int.ofNat hn.toNat = hn := by
      rw [Int.ofNat_eq_coe]
      exact Int.toNat_of_nonneg hge
    rw [hs.1, ← h7]
    exact h6
  have hlk := lookup_isSome_of_mem_keys hkey
  rcases h4 : t.lookup hn with _ | inner
  · rw [h4] at hlk
    simp at hlk
  simp only [h4]
  split_ifs <;> rfl

/-- The whole chart loop succeeds on a list of safe rows. -/
theorem foldlM_chartStep_safe :
    ∀ (rows : List RawRow) (t0 : Tally), TallyShape t0 →
      (∀ row ∈ rows, chartRowSafe row = true) →
      (List.foldlM chartStep t0 rows).isSome = true := by
  intro rows
  induction rows with
  | nil =>
    intro t0 _ _
    rw [List.foldlM_nil]
    rfl
  | cons r rows ih =>
    intro t0 hs hsafe
    rw [List.foldlM_cons]
    have h1 := chartStep_safe hs (hsafe r (List.mem_cons_self r rows))
    rcases h : chartStep t0 r with _ | t1
    · rw [h] at h1
      simp at h1
    · simp only [Option.bind_eq_bind, Option.some_bind]
      exact ih t1 (chartStep_shape h hs)
        (fun row hr => hsafe row (List.mem_cons_of_mem r hr))

/-- C6: every tally the chart loop produces carries all 24 hour keys in
order and both junction keys in each hour; the tally starts all-zero before
any row is read; a charted hour/junction cell to which no row contributes
holds count 0 (a present, zero-height bar); and when the maximum cell of
the whole tally is 0 the vertical scale factor is 0 and every bar's top
sits on the baseline `y = 450` rather than failing. -/
theorem chart_tally_complete (rows : List RawRow) (t : Tally)
    (h : chartTally rows = some t) :
    t.map Prod.fst = (List.range 24).map Int.ofNat ∧
    (∀ p ∈ t, p.2.map Prod.fst = [elmName, hanleyName]) ∧
    chartTally [] = some initialTally ∧
    (∀ p ∈ initialTally, ∀ q ∈ p.2, q.2 = 0) ∧
    (∀ (hr : Int) (j : String), j = elmName ∨ j = hanleyName →
      (∀ row ∈ rows, rowContributes row hr j = false) →
      cellValue t hr j = 0) ∧
    (tallyMax t = 0 → chartScale t = 0 ∧
      ∀ p ∈ t, ∀ q ∈ p.2, barTopY q.2 t = 450) := by
  have hshape := chartTally_shape h
  refine ⟨hshape.1, hshape.2, by decide, by decide, ?_, ?_⟩
  · intro hr j hj hnone
    rw [chartTally_cell hj h]
    rw [List.countP_eq_zero]
    intro row hrow
    simp [hnone row hrow]
  · intro hmax
    have hscale : chartScale t = 0 := by
      simp [chartScale, hmax]
    refine ⟨hscale, ?_⟩
    intro p _ q _
    rw [barTopY, hscale]
    ring

/-- Witness for C6 at the empty row list: the degenerate all-zero tally
renders with scale 0 and its cells are 0. -/
theorem chart_tally_complete_witness :
    chartTally [] = some initialTally ∧
    chartScale initialTally = 0 ∧
    cellValue initialTally 5 elmName = 0 :=
  ⟨by decide,
    ((chart_tally_complete [] initialTally (by decide)).2.2.2.2.2
      (by decide)).1,
    (chart_tally_complete [] initialTally (by decide)).2.2.2.2.1 5 elmName
      (Or.inl rfl) (by decide)⟩

/-- C7 counterexample: the claim says tally construction never raises, but
the row with time text `25:00` has an hour that casts to the integer 25
(so it is not skipped by the `ValueError` handler), and indexing the
pre-initialized 0-23 tally with 25 raises an uncaught `KeyError`: the loop
aborts (`none`). -/
theorem chart_tally_raise_counterexample :
    pyInt (hourKeyOf "25:00") = some 25 ∧ chartTally [hour25Row] = none := by
  decide

/-- C7 amended: a row whose hour text fails the integer cast is skipped for
this tally only, and the tally never raises provided every row has a
`timeOfDay` key and, whenever the hour casts, the hour lies in 0-23 and the
row also has a `JunctionName` key; outside those conditions an uncaught
`KeyError` aborts the pass. -/
theorem chart_tally_safe (rows : List RawRow)
    (hsafe : ∀ row ∈ rows, chartRowSafe row = true) :
    (chartTally rows).isSome = true ∧
    (∀ (t : Tally) (row : RawRow) (tod : String),
      row.lookup "timeOfDay" = some tod → pyInt (hourKeyOf tod) = none →
      chartStep t row = some t) := by
  constructor
  · exact foldlM_chartStep_safe rows initialTally tallyShape_initialTally hsafe
  · intro t row tod h1 h2
    unfold chartStep
    simp only [h1, h2]

/-- Witness for the amended C7 at one safe row. -/
theorem chart_tally_safe_witness :
    (∀ row ∈ [chartGoodRow], chartRowSafe row = true) ∧
    (chartTally [chartGoodRow]).isSome = true :=
  ⟨by decide, (chart_tally_safe [chartGoodRow] (by decide)).1⟩
